import Mathlib

/-
  Shallow embedding of hw_final.py, an interactive contact manager.
  Strings are modelled as Lean strings; the Python string predicates
  isalpha and isdigit are modelled at the ASCII level.  Python exceptions
  are modelled by the Except monad over the exception kinds that the
  program raises and catches (ValueError, KeyError, IndexError).
  The Python dict (insertion ordered, unique keys, assignment to an
  existing key keeps its position) is modelled by an association list.
-/

/-- Exception kinds distinguished by the input_error decorator. -/
inductive PyExc where
  | valueError
  | keyError
  | indexError
deriving DecidableEq

/-- Name field: a validated wrapper around a string value. -/
structure Name where
  value : String
deriving DecidableEq

/-- Phone field: a validated wrapper around a string value. -/
structure Phone where
  value : String
deriving DecidableEq

/-- Birthday field: a validated wrapper around a string value. -/
structure Birthday where
  value : String
deriving DecidableEq

/-- Record: one name, an ordered phone list, an optional birthday. -/
structure Record where
  name : Name
  phones : List Phone
  birthday : Option Birthday
deriving DecidableEq

/-- AddressBook: insertion-ordered mapping from name string to record. -/
structure AddressBook where
  data : List (String × Record)
deriving DecidableEq

/-- A calendar date, as produced by datetime.strptime. -/
structure Date where
  year : Nat
  month : Nat
  day : Nat
deriving DecidableEq

/-- Python str.isalpha at the ASCII level: nonempty and all letters. -/
def pyIsalpha (s : String) : Bool :=
  !s.data.isEmpty && s.data.all Char.isAlpha

/-- Python str.isdigit at the ASCII level: nonempty and all digits. -/
def pyIsdigit (s : String) : Bool :=
  !s.data.isEmpty && s.data.all Char.isDigit

/-- Numeric value of a digit string, most significant digit first. -/
def digitsToNat (cs : List Char) : Nat :=
  cs.foldl (fun n c => 10 * n + (c.toNat - 48)) 0

/-- Split a character list on the dot character, like the literal dots
of the strptime format regex. -/
def splitOnDot : List Char → List (List Char)
  | [] => [[]]
  | c :: rest =>
    if c = '.' then [] :: splitOnDot rest
    else
      match splitOnDot rest with
      | [] => [[c]]
      | g :: gs => (c :: g) :: gs

/-- The day field regex of strptime percent-d, 3[01] or [12]d or 0[1-9]
or [1-9]: one or two digits with numeric value 1 to 31. -/
def dayFieldOK (cs : List Char) : Bool :=
  (1 ≤ cs.length && cs.length ≤ 2) && cs.all Char.isDigit &&
    (1 ≤ digitsToNat cs && digitsToNat cs ≤ 31)

/-- The month field regex of strptime percent-m: one or two digits with
numeric value 1 to 12. -/
def monthFieldOK (cs : List Char) : Bool :=
  (1 ≤ cs.length && cs.length ≤ 2) && cs.all Char.isDigit &&
    (1 ≤ digitsToNat cs && digitsToNat cs ≤ 12)

/-- The year field regex of strptime percent-Y: exactly four digits. -/
def yearFieldOK (cs : List Char) : Bool :=
  cs.length == 4 && cs.all Char.isDigit

/-- Gregorian leap year rule used by the datetime module. -/
def isLeapYear (y : Nat) : Bool :=
  y % 4 == 0 && (y % 100 != 0 || y % 400 == 0)

/-- Number of days in a month of a given year. -/
def daysInMonth (y m : Nat) : Nat :=
  if m == 2 then (if isLeapYear y then 29 else 28)
  else if m == 4 || m == 6 || m == 9 || m == 11 then 30
  else 31

/-- datetime.strptime with format percent-d dot percent-m dot percent-Y:
the full string must decompose at the two literal dots into a day field,
a month field and a four digit year, and datetime then requires the year
to be at least MINYEAR = 1 and the day to exist in that month. -/
def pyStrptimeDMY (s : String) : Except PyExc Date :=
  match splitOnDot s.data with
  | [ds, ms, ys] =>
    if dayFieldOK ds && monthFieldOK ms && yearFieldOK ys then
      if 1 ≤ digitsToNat ys && digitsToNat ds ≤ daysInMonth (digitsToNat ys) (digitsToNat ms) then
        .ok ⟨digitsToNat ys, digitsToNat ms, digitsToNat ds⟩
      else .error .valueError
    else .error .valueError
  | _ => .error .valueError

/-- Name constructor: raises ValueError unless the value is alphabetic
with length at least 2. -/
def nameNew (s : String) : Except PyExc Name :=
  if ¬ (pyIsalpha s = true) ∨ s.length < 2 then .error .valueError
  else .ok ⟨s⟩

/-- Phone constructor: raises ValueError unless the value is all digits
with length exactly 10. -/
def phoneNew (s : String) : Except PyExc Phone :=
  if ¬ (pyIsdigit s = true) ∨ s.length ≠ 10 then .error .valueError
  else .ok ⟨s⟩

/-- Birthday constructor: raises ValueError unless strptime parses the
value under the format DD.MM.YYYY; the raw string is stored. -/
def birthdayNew (s : String) : Except PyExc Birthday :=
  match pyStrptimeDMY s with
  | .ok _ => .ok ⟨s⟩
  | .error e => .error e

/-- Record constructor: validates the name, starts with no phones and no
birthday. -/
def recordNew (s : String) : Except PyExc Record :=
  match nameNew s with
  | .ok n => .ok ⟨n, [], none⟩
  | .error e => .error e

/-- Record.add_phone: validates the phone and appends it. -/
def Record.add_phone (r : Record) (s : String) : Except PyExc Record :=
  match phoneNew s with
  | .ok p => .ok { r with phones := r.phones ++ [p] }
  | .error e => .error e

/-- Record.edit_phone: the source loops over all phones and assigns
new_phone to the value of every entry equal to old_phone, with no
validation of new_phone and no error when nothing matches. -/
def Record.edit_phone (r : Record) (old_phone new_phone : String) : Record :=
  { r with phones := r.phones.map fun p => if p.value = old_phone then ⟨new_phone⟩ else p }

/-- Record.add_birthday: validates and overwrites the birthday. -/
def Record.add_birthday (r : Record) (s : String) : Except PyExc Record :=
  match birthdayNew s with
  | .ok b => .ok { r with birthday := some b }
  | .error e => .error e

/-- Dict assignment d[k] = v: overwrite in place if the key is present,
else append at the end. -/
def dictSet : List (String × Record) → String → Record → List (String × Record)
  | [], k, v => [(k, v)]
  | (k0, v0) :: rest, k, v =>
    if k0 = k then (k0, v) :: rest else (k0, v0) :: dictSet rest k v

/-- Dict lookup d.get(k): first entry with the key, if any. -/
def dictGet : List (String × Record) → String → Option Record
  | [], _ => none
  | (k0, v0) :: rest, k => if k0 = k then some v0 else dictGet rest k

/-- Dict deletion del d[k] guarded by a membership test: drop the first
entry with the key, if any. -/
def dictDel : List (String × Record) → String → List (String × Record)
  | [], _ => []
  | (k0, v0) :: rest, k => if k0 = k then rest else (k0, v0) :: dictDel rest k

/-- AddressBook.add_record stores the record under its own name value. -/
def AddressBook.add_record (b : AddressBook) (r : Record) : AddressBook :=
  ⟨dictSet b.data r.name.value r⟩

/-- AddressBook.find returns the record or None. -/
def AddressBook.find (b : AddressBook) (name : String) : Option Record :=
  dictGet b.data name

/-- AddressBook.delete removes the entry if present, no-op otherwise. -/
def AddressBook.delete (b : AddressBook) (name : String) : AddressBook :=
  ⟨dictDel b.data name⟩

/-- Days in all years strictly before year y, proleptic Gregorian, as in
the datetime module. -/
def daysBeforeYear (y : Nat) : Nat :=
  365 * (y - 1) + (y - 1) / 4 - (y - 1) / 100 + (y - 1) / 400

/-- Days in the months of year y strictly before month m. -/
def daysBeforeMonth (y m : Nat) : Nat :=
  (List.range (m - 1)).foldl (fun acc i => acc + daysInMonth y (i + 1)) 0

/-- Proleptic Gregorian ordinal of a date; January 1 of year 1 is day 1,
exactly as date.toordinal in the datetime module. -/
def ordDate (d : Date) : Nat :=
  daysBeforeYear d.year + daysBeforeMonth d.year d.month + d.day

/-- Weekday names as produced by strftime percent-A, indexed so that the
ordinal of a Monday is congruent to 1 modulo 7. -/
def dayNames : List String :=
  ["Monday", "Tuesday", "Wednesday", "Thursday", "Friday", "Saturday", "Sunday"]

/-- strftime percent-A of the date whose ordinal is o. -/
def weekdayName (o : Int) : String :=
  dayNames.getD ((o - 1) % 7).toNat "Monday"

/-- The bucket keys of the birthdays_per_week dict, in literal order. -/
abbrev Buckets : Type := List (String × List String)

/-- The dict literal that get_birthdays_per_week starts from. -/
def initialBuckets : Buckets :=
  [("Monday", []), ("Tuesday", []), ("Wednesday", []), ("Thursday", []),
   ("Friday", []), ("Next Monday", [])]

/-- Append a name to the bucket stored under the given label. -/
def appendBucket (acc : Buckets) (label nm : String) : Buckets :=
  acc.map fun q => if q.1 = label then (q.1, q.2 ++ [nm]) else q

/-- Loop body of get_birthdays_per_week over the records of the book:
for each record with a birthday, strptime the stored string literally,
take delta_days = birthday_date - today, and when 0 <= delta_days < 7
append the record name to the bucket of the weekday of
today + delta_days, with Saturday and Sunday absorbed by Next Monday.
The local variables delta_days and day_of_week of the source are written
out in full at each use. -/
def gbpwAux (today : Date) : List (String × Record) → Buckets → Except PyExc Buckets
  | [], acc => .ok acc
  | pr :: rest, acc =>
    match pr.2.birthday with
    | none => gbpwAux today rest acc
    | some b =>
      match pyStrptimeDMY b.value with
      | .error e => .error e
      | .ok bd =>
        if 0 ≤ (ordDate bd : Int) - (ordDate today : Int) ∧
            (ordDate bd : Int) - (ordDate today : Int) < 7 then
          if weekdayName ((ordDate today : Int) +
                ((ordDate bd : Int) - (ordDate today : Int))) = "Saturday" ∨
              weekdayName ((ordDate today : Int) +
                ((ordDate bd : Int) - (ordDate today : Int))) = "Sunday" then
            gbpwAux today rest (appendBucket acc "Next Monday" pr.2.name.value)
          else
            gbpwAux today rest (appendBucket acc
              (weekdayName ((ordDate today : Int) +
                ((ordDate bd : Int) - (ordDate today : Int)))) pr.2.name.value)
        else gbpwAux today rest acc

/-- AddressBook.get_birthdays_per_week, with the call datetime.now made
explicit as the today parameter. -/
def AddressBook.get_birthdays_per_week (b : AddressBook) (today : Date) : Except PyExc Buckets :=
  gbpwAux today b.data initialBuckets

/-- Whether the stored birthday of a record, if any, parses under the
strptime format; true for every record built through the program API. -/
def birthdayParses (r : Record) : Bool :=
  match r.birthday with
  | none => true
  | some b => (pyStrptimeDMY b.value).isOk

/-- The bucket label a birthday occurrence date is filed under: Next
Monday for Saturday and Sunday occurrences, else the weekday name. -/
def bucketLabel (bd : Date) : String :=
  if weekdayName (ordDate bd : Int) = "Saturday" ∨
      weekdayName (ordDate bd : Int) = "Sunday" then "Next Monday"
  else weekdayName (ordDate bd : Int)

/-- Selector describing one bucket of the result: the name of the given
record if its birthday parses to a date at 0 to 6 days after today whose
bucket label is L. -/
def selName (today : Date) (L : String) (pr : String × Record) : Option String :=
  match pr.2.birthday with
  | none => none
  | some b =>
    match pyStrptimeDMY b.value with
    | .error _ => none
    | .ok bd =>
      if 0 ≤ (ordDate bd : Int) - (ordDate today : Int) ∧
          (ordDate bd : Int) - (ordDate today : Int) < 7 ∧ bucketLabel bd = L then
        some pr.2.name.value
      else none

/-- Python list indexing l[i], raising IndexError when out of range. -/
def listIndex (l : List Phone) (i : Nat) : Except PyExc Phone :=
  match l.get? i with
  | some x => .ok x
  | none => .error .indexError

/-- The fixed message the input_error decorator returns for each caught
exception kind. -/
def input_error (e : PyExc) : String :=
  match e with
  | .valueError => "Give me name and phone please."
  | .keyError => "Contact not found."
  | .indexError => "Invalid input. Please provide the required information."

/-- Run a handler body under the input_error decorator: a raised
exception becomes its fixed message and leaves the book unchanged, which
matches the source because every raising path raises before mutating. -/
def runHandler (r : Except PyExc (String × AddressBook)) (book : AddressBook) :
    String × AddressBook :=
  match r with
  | .ok v => v
  | .error e => (input_error e, book)

/-- Body of handle_add: with exactly two arguments build a record from
the name, add the phone, store the record; else report bad input. -/
def handle_add_body (args : List String) (book : AddressBook) :
    Except PyExc (String × AddressBook) :=
  match args with
  | [nm, phone] =>
    match recordNew nm with
    | .error e => .error e
    | .ok record =>
      match record.add_phone phone with
      | .error e => .error e
      | .ok record2 => .ok ("Contact added.", book.add_record record2)
  | _ => .ok ("Invalid input. Please provide a name and a phone number.", book)

/-- handle_add under the input_error decorator. -/
def handle_add (args : List String) (book : AddressBook) : String × AddressBook :=
  runHandler (handle_add_body args book) book

/-- Body of handle_change: with exactly two arguments find the record,
read its first phone (IndexError when the phone list is empty), and
edit that phone to the new value. -/
def handle_change_body (args : List String) (book : AddressBook) :
    Except PyExc (String × AddressBook) :=
  match args with
  | [nm, new_phone] =>
    match book.find nm with
    | some record =>
      match listIndex record.phones 0 with
      | .error e => .error e
      | .ok p0 =>
        .ok ("Contact updated.", ⟨dictSet book.data nm (record.edit_phone p0.value new_phone)⟩)
    | none => .ok ("Contact not found.", book)
  | _ => .ok ("Invalid input. Please provide a name and a new phone number.", book)

/-- handle_change under the input_error decorator. -/
def handle_change (args : List String) (book : AddressBook) : String × AddressBook :=
  runHandler (handle_change_body args book) book

/-- Body of handle_phone: with exactly one argument find the record and
return its first phone value (IndexError when the phone list is empty). -/
def handle_phone_body (args : List String) (book : AddressBook) :
    Except PyExc (String × AddressBook) :=
  match args with
  | [nm] =>
    match book.find nm with
    | some record =>
      match listIndex record.phones 0 with
      | .error e => .error e
      | .ok p0 => .ok (p0.value, book)
    | none => .ok ("Contact not found.", book)
  | _ => .ok ("Invalid input. Please provide a name.", book)

/-- handle_phone under the input_error decorator. -/
def handle_phone (args : List String) (book : AddressBook) : String × AddressBook :=
  runHandler (handle_phone_body args book) book

/-- Body of handle_add_birthday: with exactly two arguments find the
record and set its birthday, validating the date string. -/
def handle_add_birthday_body (args : List String) (book : AddressBook) :
    Except PyExc (String × AddressBook) :=
  match args with
  | [nm, birthday] =>
    match book.find nm with
    | some record =>
      match record.add_birthday birthday with
      | .error e => .error e
      | .ok record2 => .ok ("Birthday added.", ⟨dictSet book.data nm record2⟩)
    | none => .ok ("Contact not found.", book)
  | _ => .ok ("Invalid input. Please provide a name and a birthday (DD.MM.YYYY).", book)

/-- handle_add_birthday under the input_error decorator. -/
def handle_add_birthday (args : List String) (book : AddressBook) : String × AddressBook :=
  runHandler (handle_add_birthday_body args book) book

/-- Body of handle_show_birthday: with exactly one argument, return the
birthday value when the record exists and has one, else the combined
not-found message. -/
def handle_show_birthday_body (args : List String) (book : AddressBook) :
    Except PyExc (String × AddressBook) :=
  match args with
  | [nm] =>
    match book.find nm with
    | some record =>
      match record.birthday with
      | some b => .ok (b.value, book)
      | none => .ok ("Contact not found or birthday not specified.", book)
    | none => .ok ("Contact not found or birthday not specified.", book)
  | _ => .ok ("Invalid input. Please provide a name.", book)

/-- handle_show_birthday under the input_error decorator. -/
def handle_show_birthday (args : List String) (book : AddressBook) : String × AddressBook :=
  runHandler (handle_show_birthday_body args book) book

/-- The shape the claim about Birthday asserts: exactly two digits, a
dot, two digits, a dot, four digits. -/
def claimedExactDDMMYYYY (s : String) : Bool :=
  match s.data with
  | [d1, d2, c1, m1, m2, c2, y1, y2, y3, y4] =>
    d1.isDigit && d2.isDigit && (c1 == '.') && m1.isDigit && m2.isDigit &&
      (c2 == '.') && y1.isDigit && y2.isDigit && y3.isDigit && y4.isDigit
  | _ => false

section helperLemmas

lemma nameNew_of_isOk_eq_false {s : String} (h : (nameNew s).isOk = false) :
    nameNew s = .error .valueError := by
  unfold nameNew at h ⊢
  by_cases hc : ¬ pyIsalpha s = true ∨ s.length < 2
  · rw [if_pos hc]
  · rw [if_neg hc] at h; simp [Except.isOk, Except.toBool] at h

lemma phoneNew_of_isOk_eq_false {s : String} (h : (phoneNew s).isOk = false) :
    phoneNew s = .error .valueError := by
  unfold phoneNew at h ⊢
  by_cases hc : ¬ pyIsdigit s = true ∨ s.length ≠ 10
  · rw [if_pos hc]
  · rw [if_neg hc] at h; simp [Except.isOk, Except.toBool] at h

lemma pyStrptimeDMY_error_shape {s : String} {e : PyExc}
    (h : pyStrptimeDMY s = .error e) : e = .valueError := by
  unfold pyStrptimeDMY at h
  split at h
  · split at h
    · split at h
      · cases h
      · cases h; rfl
    · cases h; rfl
  · cases h; rfl

lemma birthdayNew_of_isOk_eq_false {s : String} (h : (birthdayNew s).isOk = false) :
    birthdayNew s = .error .valueError := by
  unfold birthdayNew at h ⊢
  split
  · next heq => rw [heq] at h; simp [Except.isOk, Except.toBool] at h
  · next e heq => rw [pyStrptimeDMY_error_shape heq]

end helperLemmas

/-- C5: Phone(s) succeeds iff s consists only of decimal digit
characters (ASCII model of str.isdigit) and has length exactly 10, and
on success the stored value is exactly s. -/
theorem phone_valid_iff (s : String) :
    ((phoneNew s).isOk = true ↔ s.length = 10 ∧ ∀ c ∈ s.data, c.isDigit = true) ∧
    (∀ p : Phone, phoneNew s = .ok p → p.value = s) := by
  refine ⟨⟨?_, ?_⟩, ?_⟩
  · intro hok
    unfold phoneNew at hok
    split at hok
    · simp [Except.isOk, Except.toBool] at hok
    · next h =>
      push_neg at h
      obtain ⟨hd, hl⟩ := h
      refine ⟨hl, ?_⟩
      intro c hc
      unfold pyIsdigit at hd
      simp only [Bool.and_eq_true, List.all_eq_true] at hd
      exact hd.2 c hc
  · rintro ⟨hl, hd⟩
    unfold phoneNew
    rw [if_neg]
    · rfl
    · push_neg
      refine ⟨?_, hl⟩
      unfold pyIsdigit
      simp only [Bool.and_eq_true, Bool.not_eq_true', List.all_eq_true]
      refine ⟨?_, hd⟩
      have hlen : s.data.length = 10 := hl
      cases hdata : s.data with
      | nil => rw [hdata] at hlen; simp at hlen
      | cons a t => simp
  · intro p hp
    unfold phoneNew at hp
    split at hp
    · cases hp
    · cases hp; rfl

/-- C5 witness: the ten digit string 1234567890 is accepted by the
equivalence and round trips its exact value on render. -/
theorem phone_valid_iff_witness :
    (phoneNew "1234567890").isOk = true ∧ (Phone.mk "1234567890").value = "1234567890" :=
  ⟨(phone_valid_iff "1234567890").1.mpr (by decide),
    (phone_valid_iff "1234567890").2 ⟨"1234567890"⟩ rfl⟩

/-- C2 counterexample: with two stored copies of the same number,
edit_phone rewrites both of them, not only the first, and a new value
that is not ten digits is accepted without any validation. -/
theorem edit_phone_counterexample :
    (Record.edit_phone ⟨⟨"Anna"⟩, [⟨"1111111111"⟩, ⟨"1111111111"⟩], none⟩
        "1111111111" "2222222222").phones = [⟨"2222222222"⟩, ⟨"2222222222"⟩] ∧
    (Record.edit_phone ⟨⟨"Anna"⟩, [⟨"1111111111"⟩, ⟨"1111111111"⟩], none⟩
        "1111111111" "2222222222").phones ≠ [⟨"2222222222"⟩, ⟨"1111111111"⟩] ∧
    (Record.edit_phone ⟨⟨"Anna"⟩, [⟨"1111111111"⟩], none⟩
        "1111111111" "abc").phones = [⟨"abc"⟩] := by
  refine ⟨by decide, by decide, by decide⟩

/-- C2 amended: edit_phone never raises and performs no validation of
the new value; it replaces the value of every stored entry equal to
old_phone with new_phone and leaves every other entry, the name and the
birthday unchanged. -/
theorem edit_phone_replaces_every_match (r : Record) (old_phone new_phone : String) :
    (r.edit_phone old_phone new_phone).name = r.name ∧
    (r.edit_phone old_phone new_phone).birthday = r.birthday ∧
    ∀ i : Nat, ((r.edit_phone old_phone new_phone).phones[i]?).map Phone.value =
      (r.phones[i]?).map fun p => if p.value = old_phone then new_phone else p.value := by
  refine ⟨rfl, rfl, ?_⟩
  intro i
  unfold Record.edit_phone
  simp only [List.getElem?_map]
  cases hp : r.phones[i]? with
  | none => rfl
  | some p => by_cases h : p.value = old_phone <;> simp [h]

/-- C7: when no stored phone entry equals old_phone, edit_phone changes
nothing at all and raises no error. -/
theorem edit_phone_no_match (r : Record) (old_phone new_phone : String)
    (h : ∀ p ∈ r.phones, p.value ≠ old_phone) :
    r.edit_phone old_phone new_phone = r := by
  unfold Record.edit_phone
  have hmap : r.phones.map (fun p => if p.value = old_phone then (⟨new_phone⟩ : Phone) else p)
      = r.phones := by
    have := List.map_congr_left (l := r.phones)
      (f := fun p => if p.value = old_phone then (⟨new_phone⟩ : Phone) else p) (g := id)
      (fun p hp => by simp [h p hp])
    rw [this, List.map_id]
  rw [hmap]

/-- C7 witness: editing a number that is not stored, to an invalid
value, leaves a concrete record untouched. -/
theorem edit_phone_no_match_witness :
    Record.edit_phone ⟨⟨"Anna"⟩, [⟨"1234567890"⟩], none⟩ "0000000000" "xyz" =
      ⟨⟨"Anna"⟩, [⟨"1234567890"⟩], none⟩ :=
  edit_phone_no_match _ _ _ (by decide)

/-- C8: on the empty book, handle_add with Bob and a ten digit number
reports Contact added., the stored record has exactly that one phone,
and find of any name on an empty book returns None without raising. -/
theorem handle_add_bob_scenario :
    (handle_add ["Bob", "1234567890"] ⟨[]⟩).1 = "Contact added." ∧
    (handle_add ["Bob", "1234567890"] ⟨[]⟩).2.find "Bob" =
      some ⟨⟨"Bob"⟩, [⟨"1234567890"⟩], none⟩ ∧
    ∀ n : String, AddressBook.find ⟨[]⟩ n = none := by
  refine ⟨by decide, by decide, fun n => rfl⟩

/-- C9: for a book that has a record under the queried name,
handle_phone returns the value of the first stored phone and ignores the
rest; when the phone list is empty the IndexError from the subscript is
caught by the decorator and becomes the fixed invalid-input message. In
both cases the book is unchanged. -/
theorem handle_phone_first_phone (book : AddressBook) (nm : String) (r : Record)
    (h : book.find nm = some r) :
    handle_phone [nm] book =
      ((match r.phones with
        | [] => "Invalid input. Please provide the required information."
        | p :: _ => p.value), book) := by
  show runHandler
    (match book.find nm with
      | some record =>
        match listIndex record.phones 0 with
        | .error e => .error e
        | .ok p0 => .ok (p0.value, book)
      | none => .ok ("Contact not found.", book)) book = _
  rw [h]
  obtain ⟨n0, ph, bd⟩ := r
  cases ph with
  | nil => rfl
  | cons p t => rfl

/-- C9 witness: a record with two phones yields the first; a record with
no phones yields the invalid-input message. -/
theorem handle_phone_first_phone_witness :
    handle_phone ["Ann"] ⟨[("Ann", ⟨⟨"Ann"⟩, [⟨"1234567890"⟩, ⟨"0987654321"⟩], none⟩)]⟩ =
      ("1234567890", ⟨[("Ann", ⟨⟨"Ann"⟩, [⟨"1234567890"⟩, ⟨"0987654321"⟩], none⟩)]⟩) ∧
    handle_phone ["Bo"] ⟨[("Bo", ⟨⟨"Bo"⟩, [], none⟩)]⟩ =
      ("Invalid input. Please provide the required information.",
        ⟨[("Bo", ⟨⟨"Bo"⟩, [], none⟩)]⟩) :=
  ⟨handle_phone_first_phone ⟨[("Ann", ⟨⟨"Ann"⟩, [⟨"1234567890"⟩, ⟨"0987654321"⟩], none⟩)]⟩
      "Ann" ⟨⟨"Ann"⟩, [⟨"1234567890"⟩, ⟨"0987654321"⟩], none⟩ (by decide),
    handle_phone_first_phone ⟨[("Bo", ⟨⟨"Bo"⟩, [], none⟩)]⟩
      "Bo" ⟨⟨"Bo"⟩, [], none⟩ (by decide)⟩

section dictLemmas

lemma dictGet_dictSet_self (l : List (String × Record)) (k : String) (v : Record) :
    dictGet (dictSet l k v) k = some v := by
  induction l with
  | nil => simp [dictSet, dictGet]
  | cons p rest ih =>
    obtain ⟨k0, v0⟩ := p
    by_cases hk : k0 = k
    · simp [dictSet, dictGet, hk]
    · simp [dictSet, dictGet, hk, ih]

lemma dictGet_dictSet_ne (l : List (String × Record)) (k k2 : String) (v : Record)
    (h : k2 ≠ k) : dictGet (dictSet l k v) k2 = dictGet l k2 := by
  induction l with
  | nil =>
    have hne : ¬ k = k2 := fun hh => h hh.symm
    simp [dictSet, dictGet, hne]
  | cons p rest ih =>
    obtain ⟨k0, v0⟩ := p
    by_cases hk : k0 = k
    · subst hk
      have h2 : ¬ k0 = k2 := fun hh => h hh.symm
      simp [dictSet, dictGet, h2]
    · simp [dictSet, dictGet, hk, ih]

lemma dictSet_keys_of_mem (l : List (String × Record)) (k : String) (v : Record)
    (h : k ∈ l.map Prod.fst) : (dictSet l k v).map Prod.fst = l.map Prod.fst := by
  induction l with
  | nil => simp at h
  | cons p rest ih =>
    obtain ⟨k0, v0⟩ := p
    by_cases hk : k0 = k
    · simp [dictSet, hk]
    · have hmem : k ∈ rest.map Prod.fst := by
        simp only [List.map_cons, List.mem_cons] at h
        rcases h with h | h
        · exact absurd h.symm hk
        · exact h
      simp [dictSet, hk, ih hmem]

lemma dictSet_keys_of_not_mem (l : List (String × Record)) (k : String) (v : Record)
    (h : k ∉ l.map Prod.fst) :
    (dictSet l k v).map Prod.fst = l.map Prod.fst ++ [k] := by
  induction l with
  | nil => simp [dictSet]
  | cons p rest ih =>
    obtain ⟨k0, v0⟩ := p
    simp only [List.map_cons, List.mem_cons] at h
    push_neg at h
    have hne : ¬ k0 = k := fun hh => h.1 hh.symm
    simp [dictSet, hne, ih h.2]

lemma mem_keys_dictSet (l : List (String × Record)) (k : String) (v : Record) :
    k ∈ (dictSet l k v).map Prod.fst := by
  by_cases h : k ∈ l.map Prod.fst
  · rw [dictSet_keys_of_mem l k v h]; exact h
  · rw [dictSet_keys_of_not_mem l k v h]; simp

lemma nodup_keys_dictSet (l : List (String × Record)) (k : String) (v : Record)
    (h : (l.map Prod.fst).Nodup) : ((dictSet l k v).map Prod.fst).Nodup := by
  by_cases hm : k ∈ l.map Prod.fst
  · rw [dictSet_keys_of_mem l k v hm]; exact h
  · rw [dictSet_keys_of_not_mem l k v hm]
    simp [List.nodup_append, h, hm]

end dictLemmas

section handlerLemmas

lemma recordNew_of_name_error {s : String} (h : (nameNew s).isOk = false) :
    recordNew s = .error .valueError := by
  unfold recordNew; rw [nameNew_of_isOk_eq_false h]

lemma addPhone_of_phone_error (r : Record) {s : String} (h : (phoneNew s).isOk = false) :
    r.add_phone s = .error .valueError := by
  unfold Record.add_phone; rw [phoneNew_of_isOk_eq_false h]

lemma addBirthday_of_error (r : Record) {s : String} (h : (birthdayNew s).isOk = false) :
    r.add_birthday s = .error .valueError := by
  unfold Record.add_birthday; rw [birthdayNew_of_isOk_eq_false h]

end handlerLemmas

/-- C3 counterexample: a wrong argument count for the add command is
answered with a message of its own, which is none of the three fixed
strings of the claim. -/
theorem handler_messages_counterexample :
    (handle_add ["B"] ⟨[]⟩).1 = "Invalid input. Please provide a name and a phone number." ∧
    (handle_add ["B"] ⟨[]⟩).1 ≠ "Give me name and phone please." ∧
    (handle_add ["B"] ⟨[]⟩).1 ≠ "Contact not found." ∧
    (handle_add ["B"] ⟨[]⟩).1 ≠ "Invalid input. Please provide the required information." := by
  refine ⟨by decide, by decide, by decide, by decide⟩

/-- C3 amended: no exception escapes any handler (each embedded handler
is a total function); every ValidationError is converted to the fixed
string Give me name and phone please.; a not-found lookup is converted
to Contact not found. in the add, change, phone and add-birthday
handlers and to Contact not found or birthday not specified. in the
show-birthday handler; and a wrong number of positional arguments is
answered by a per-handler invalid-input message, not by one shared
string. -/
theorem handler_error_messages (args : List String) (book : AddressBook) :
    (args.length ≠ 2 →
      handle_add args book = ("Invalid input. Please provide a name and a phone number.", book)) ∧
    (∀ nm phone, ((nameNew nm).isOk = false ∨ (phoneNew phone).isOk = false) →
      handle_add [nm, phone] book = ("Give me name and phone please.", book)) ∧
    (args.length ≠ 2 →
      handle_change args book =
        ("Invalid input. Please provide a name and a new phone number.", book)) ∧
    (∀ nm np, book.find nm = none →
      handle_change [nm, np] book = ("Contact not found.", book)) ∧
    (args.length ≠ 1 →
      handle_phone args book = ("Invalid input. Please provide a name.", book)) ∧
    (∀ nm, book.find nm = none →
      handle_phone [nm] book = ("Contact not found.", book)) ∧
    (args.length ≠ 2 →
      handle_add_birthday args book =
        ("Invalid input. Please provide a name and a birthday (DD.MM.YYYY).", book)) ∧
    (∀ nm bd, book.find nm = none →
      handle_add_birthday [nm, bd] book = ("Contact not found.", book)) ∧
    (∀ nm bd r, book.find nm = some r → (birthdayNew bd).isOk = false →
      handle_add_birthday [nm, bd] book = ("Give me name and phone please.", book)) ∧
    (args.length ≠ 1 →
      handle_show_birthday args book = ("Invalid input. Please provide a name.", book)) ∧
    (∀ nm, book.find nm = none →
      handle_show_birthday [nm] book = ("Contact not found or birthday not specified.", book)) := by
  refine ⟨?_, ?_, ?_, ?_, ?_, ?_, ?_, ?_, ?_, ?_, ?_⟩
  · intro h
    rcases args with _ | ⟨a, _ | ⟨b, _ | ⟨c, t⟩⟩⟩
    · rfl
    · rfl
    · simp at h
    · rfl
  · intro nm phone h
    rcases h with h | h
    · simp [handle_add, handle_add_body, runHandler, recordNew_of_name_error h, input_error]
    · cases hn : nameNew nm with
      | error e =>
        have hno : (nameNew nm).isOk = false := by rw [hn]; rfl
        simp [handle_add, handle_add_body, runHandler, recordNew_of_name_error hno, input_error]
      | ok n0 =>
        have hrec : recordNew nm = .ok ⟨n0, [], none⟩ := by unfold recordNew; rw [hn]
        simp [handle_add, handle_add_body, runHandler, hrec,
          addPhone_of_phone_error _ h, input_error]
  · intro h
    rcases args with _ | ⟨a, _ | ⟨b, _ | ⟨c, t⟩⟩⟩
    · rfl
    · rfl
    · simp at h
    · rfl
  · intro nm np hf
    simp [handle_change, handle_change_body, runHandler, hf]
  · intro h
    rcases args with _ | ⟨a, _ | ⟨b, t⟩⟩
    · rfl
    · simp at h
    · rfl
  · intro nm hf
    simp [handle_phone, handle_phone_body, runHandler, hf]
  · intro h
    rcases args with _ | ⟨a, _ | ⟨b, _ | ⟨c, t⟩⟩⟩
    · rfl
    · rfl
    · simp at h
    · rfl
  · intro nm bd hf
    simp [handle_add_birthday, handle_add_birthday_body, runHandler, hf]
  · intro nm bd r hf hb
    simp [handle_add_birthday, handle_add_birthday_body, runHandler, hf,
      addBirthday_of_error _ hb, input_error]
  · intro h
    rcases args with _ | ⟨a, _ | ⟨b, t⟩⟩
    · rfl
    · simp at h
    · rfl
  · intro nm hf
    simp [handle_show_birthday, handle_show_birthday_body, runHandler, hf]

section splitLemmas

lemma splitOnDot_ne_nil (cs : List Char) : splitOnDot cs ≠ [] := by
  cases cs with
  | nil => simp [splitOnDot]
  | cons c rest =>
    unfold splitOnDot
    by_cases hc : c = '.'
    · simp [hc]
    · rw [if_neg hc]
      cases h : splitOnDot rest <;> simp

lemma splitOnDot_no_dot {cs : List Char} (h : ∀ c ∈ cs, c ≠ '.') :
    splitOnDot cs = [cs] := by
  induction cs with
  | nil => rfl
  | cons c rest ih =>
    unfold splitOnDot
    rw [if_neg (h c (List.mem_cons_self c rest))]
    rw [ih fun x hx => h x (List.mem_cons_of_mem c hx)]

lemma splitOnDot_append {a : List Char} (rest : List Char) (ha : ∀ c ∈ a, c ≠ '.') :
    splitOnDot (a ++ '.' :: rest) = a :: splitOnDot rest := by
  induction a with
  | nil => simp [splitOnDot]
  | cons c a2 ih =>
    rw [List.cons_append]
    show splitOnDot (c :: (a2 ++ '.' :: rest)) = (c :: a2) :: splitOnDot rest
    rw [show splitOnDot (c :: (a2 ++ '.' :: rest)) =
      (if c = '.' then [] :: splitOnDot (a2 ++ '.' :: rest)
       else match splitOnDot (a2 ++ '.' :: rest) with
            | [] => [[c]]
            | g :: gs => (c :: g) :: gs) from rfl]
    rw [if_neg (ha c (List.mem_cons_self c a2))]
    rw [ih fun x hx => ha x (List.mem_cons_of_mem c hx)]

lemma splitOnDot_eq_one {cs a : List Char} (h : splitOnDot cs = [a]) : cs = a := by
  induction cs generalizing a with
  | nil =>
    unfold splitOnDot at h
    injection h with h1 h2
  | cons c rest ih =>
    unfold splitOnDot at h
    by_cases hc : c = '.'
    · rw [if_pos hc] at h
      injection h with h1 h2
      exact absurd h2 (splitOnDot_ne_nil rest)
    · rw [if_neg hc] at h
      cases hs : splitOnDot rest with
      | nil => exact absurd hs (splitOnDot_ne_nil rest)
      | cons g gs =>
        rw [hs] at h
        injection h with h1 h2
        subst h2
        rw [← h1, ih hs]

lemma splitOnDot_eq_two {cs a b : List Char} (h : splitOnDot cs = [a, b]) :
    cs = a ++ '.' :: b := by
  induction cs generalizing a with
  | nil =>
    unfold splitOnDot at h
    injection h with h1 h2
    cases h2
  | cons c rest ih =>
    unfold splitOnDot at h
    by_cases hc : c = '.'
    · rw [if_pos hc] at h
      injection h with h1 h2
      subst hc
      rw [← h1, splitOnDot_eq_one h2]
      rfl
    · rw [if_neg hc] at h
      cases hs : splitOnDot rest with
      | nil => exact absurd hs (splitOnDot_ne_nil rest)
      | cons g gs =>
        rw [hs] at h
        injection h with h1 h2
        have hrest : rest = g ++ '.' :: b := by
          apply ih
          rw [hs, h2]
        rw [← h1, hrest]
        rfl

lemma splitOnDot_eq_three {cs a b c3 : List Char} (h : splitOnDot cs = [a, b, c3]) :
    cs = a ++ '.' :: (b ++ '.' :: c3) := by
  induction cs generalizing a with
  | nil =>
    unfold splitOnDot at h
    injection h with h1 h2
    cases h2
  | cons c rest ih =>
    unfold splitOnDot at h
    by_cases hc : c = '.'
    · rw [if_pos hc] at h
      injection h with h1 h2
      subst hc
      rw [← h1, splitOnDot_eq_two h2]
      rfl
    · rw [if_neg hc] at h
      cases hs : splitOnDot rest with
      | nil => exact absurd hs (splitOnDot_ne_nil rest)
      | cons g gs =>
        rw [hs] at h
        injection h with h1 h2
        have hrest : rest = g ++ '.' :: (b ++ '.' :: c3) := by
          apply ih
          rw [hs, h2]
        rw [← h1, hrest]
        rfl

lemma splitOnDot_of_decomp {a b c3 : List Char} (ha : ∀ c ∈ a, c ≠ '.')
    (hb : ∀ c ∈ b, c ≠ '.') (hc : ∀ c ∈ c3, c ≠ '.') :
    splitOnDot (a ++ '.' :: (b ++ '.' :: c3)) = [a, b, c3] := by
  rw [splitOnDot_append _ ha, splitOnDot_append _ hb, splitOnDot_no_dot hc]

lemma daysInMonth_le_31 (y m : Nat) : daysInMonth y m ≤ 31 := by
  unfold daysInMonth
  split
  · split <;> omega
  · split <;> omega

lemma digits_ne_dot {l : List Char} (hl : ∀ c ∈ l, c.isDigit = true) :
    ∀ c ∈ l, c ≠ '.' := by
  intro c hc he
  subst he
  exact absurd (hl _ hc) (by decide)

end splitLemmas

/-- The decomposition that the source actually accepts for a birthday
string: a one or two digit day, a literal dot, a one or two digit month,
a literal dot and a four digit year, with the month between 1 and 12,
the year at least 1, and the day between 1 and the length of that month
of that year. -/
def BirthdayShapeOK (s : String) : Prop :=
  ∃ ds ms ys : List Char,
    s.data = ds ++ '.' :: (ms ++ '.' :: ys) ∧
    (ds.length = 1 ∨ ds.length = 2) ∧ (∀ c ∈ ds, c.isDigit = true) ∧
    1 ≤ digitsToNat ds ∧
    (ms.length = 1 ∨ ms.length = 2) ∧ (∀ c ∈ ms, c.isDigit = true) ∧
    1 ≤ digitsToNat ms ∧ digitsToNat ms ≤ 12 ∧
    ys.length = 4 ∧ (∀ c ∈ ys, c.isDigit = true) ∧
    1 ≤ digitsToNat ys ∧
    digitsToNat ds ≤ daysInMonth (digitsToNat ys) (digitsToNat ms)

/-- C4 counterexample: the string 1.01.2020 is not in the exact
zero-padded two-digit-day shape the claim requires, yet the source
accepts it, because strptime also matches one digit days. -/
theorem birthday_shape_counterexample :
    claimedExactDDMMYYYY "1.01.2020" = false ∧
    (birthdayNew "1.01.2020").isOk = true := by
  refine ⟨by decide, by decide⟩

/-- C4 amended: Birthday(s) succeeds if and only if s decomposes as a
one or two digit day, a dot, a one or two digit month, a dot and a four
digit year, naming a calendar-valid date whose year is at least 1; on
success the stored value renders unchanged. -/
theorem birthday_valid_iff (s : String) :
    ((birthdayNew s).isOk = true ↔ BirthdayShapeOK s) ∧
    (∀ b : Birthday, birthdayNew s = .ok b → b.value = s) := by
  have hbo : (birthdayNew s).isOk = (pyStrptimeDMY s).isOk := by
    unfold birthdayNew
    split
    · next heq => rw [heq]; rfl
    · next e heq => rw [heq]; rfl
  refine ⟨?_, ?_⟩
  · rw [hbo]
    constructor
    · intro hok
      unfold pyStrptimeDMY at hok
      split at hok
      · next ds ms ys heq =>
        split at hok
        · next hc1 =>
          split at hok
          · next hc2 =>
            refine ⟨ds, ms, ys, splitOnDot_eq_three heq, ?_⟩
            simp only [dayFieldOK, monthFieldOK, yearFieldOK, Bool.and_eq_true,
              decide_eq_true_eq, List.all_eq_true, beq_iff_eq] at hc1 hc2
            obtain ⟨⟨hday, hmonth⟩, hyear⟩ := hc1
            obtain ⟨⟨hdlen, hddig⟩, hdval⟩ := hday
            obtain ⟨⟨hmlen, hmdig⟩, hmval⟩ := hmonth
            obtain ⟨hylen, hydig⟩ := hyear
            obtain ⟨hy1, hdm⟩ := hc2
            exact ⟨by omega, hddig, by omega, by omega, hmdig, by omega, by omega,
              hylen, hydig, hy1, hdm⟩
          · simp [Except.isOk, Except.toBool] at hok
        · simp [Except.isOk, Except.toBool] at hok
      · simp [Except.isOk, Except.toBool] at hok
    · rintro ⟨ds, ms, ys, hdecomp, hdl, hdd, hd1, hml, hmd, hm1, hm12, hyl, hyd, hy1, hdm⟩
      have hsplit : splitOnDot s.data = [ds, ms, ys] := by
        rw [hdecomp]
        exact splitOnDot_of_decomp (digits_ne_dot hdd) (digits_ne_dot hmd) (digits_ne_dot hyd)
      have h31 := daysInMonth_le_31 (digitsToNat ys) (digitsToNat ms)
      have hdl2 : 1 ≤ ds.length ∧ ds.length ≤ 2 := by rcases hdl with h | h <;> omega
      have hml2 : 1 ≤ ms.length ∧ ms.length ≤ 2 := by rcases hml with h | h <;> omega
      have hd31 : digitsToNat ds ≤ 31 := le_trans hdm h31
      have hc1 : (dayFieldOK ds && monthFieldOK ms && yearFieldOK ys) = true := by
        simp only [dayFieldOK, monthFieldOK, yearFieldOK, Bool.and_eq_true,
          decide_eq_true_eq, List.all_eq_true, beq_iff_eq]
        exact ⟨⟨⟨⟨hdl2, hdd⟩, hd1, hd31⟩, ⟨hml2, hmd⟩, hm1, hm12⟩, hyl, hyd⟩
      have hc2 : (decide (1 ≤ digitsToNat ys) &&
          decide (digitsToNat ds ≤ daysInMonth (digitsToNat ys) (digitsToNat ms))) = true := by
        simp only [Bool.and_eq_true, decide_eq_true_eq]
        exact ⟨hy1, hdm⟩
      unfold pyStrptimeDMY
      rw [hsplit]
      simp [hc1, hc2, Except.isOk, Except.toBool]
  · intro b hb
    unfold birthdayNew at hb
    split at hb
    · cases hb; rfl
    · cases hb

/-- C4 witness: the leap day 29.02.2020 is accepted, the theorem turns
that acceptance into the decomposed shape, and the stored value round
trips. -/
theorem birthday_valid_iff_witness :
    BirthdayShapeOK "29.02.2020" ∧ (Birthday.mk "29.02.2020").value = "29.02.2020" :=
  ⟨(birthday_valid_iff "29.02.2020").1.mp (by decide),
    (birthday_valid_iff "29.02.2020").2 ⟨"29.02.2020"⟩ rfl⟩

/-- Book states reachable from the empty book through add_record,
delete and the argument-taking command handlers. -/
inductive ReachableBook : AddressBook → Prop where
  | empty : ReachableBook ⟨[]⟩
  | add_record (b : AddressBook) (r : Record) :
      ReachableBook b → ReachableBook (b.add_record r)
  | del (b : AddressBook) (nm : String) :
      ReachableBook b → ReachableBook (b.delete nm)
  | app_add (b : AddressBook) (args : List String) :
      ReachableBook b → ReachableBook (handle_add args b).2
  | app_change (b : AddressBook) (args : List String) :
      ReachableBook b → ReachableBook (handle_change args b).2
  | app_phone (b : AddressBook) (args : List String) :
      ReachableBook b → ReachableBook (handle_phone args b).2
  | app_add_birthday (b : AddressBook) (args : List String) :
      ReachableBook b → ReachableBook (handle_add_birthday args b).2
  | app_show_birthday (b : AddressBook) (args : List String) :
      ReachableBook b → ReachableBook (handle_show_birthday args b).2

/-- The invariant of C10: every entry of the book is stored under the
string value of its own name. -/
def BookInv (b : AddressBook) : Prop :=
  ∀ p ∈ b.data, p.2.name.value = p.1

section invLemmas

lemma dictGet_mem {l : List (String × Record)} {n : String} {r : Record}
    (h : dictGet l n = some r) : (n, r) ∈ l := by
  induction l with
  | nil => cases h
  | cons p rest ih =>
    obtain ⟨k0, v0⟩ := p
    by_cases hk : k0 = n
    · subst hk
      unfold dictGet at h
      rw [if_pos rfl] at h
      cases h
      exact List.mem_cons_self _ _
    · unfold dictGet at h
      rw [if_neg hk] at h
      exact List.mem_cons_of_mem _ (ih h)

lemma bookInv_dictSet {l : List (String × Record)} {k : String} {v : Record}
    (hInv : ∀ p ∈ l, p.2.name.value = p.1) (hv : v.name.value = k) :
    ∀ p ∈ dictSet l k v, p.2.name.value = p.1 := by
  induction l with
  | nil =>
    intro p hp
    unfold dictSet at hp
    rcases List.mem_singleton.mp hp with rfl
    exact hv
  | cons q rest ih =>
    obtain ⟨k0, v0⟩ := q
    intro p hp
    by_cases hk : k0 = k
    · unfold dictSet at hp
      rw [if_pos hk] at hp
      rcases List.mem_cons.mp hp with rfl | hp
      · exact hv.trans hk.symm
      · exact hInv p (List.mem_cons_of_mem _ hp)
    · unfold dictSet at hp
      rw [if_neg hk] at hp
      rcases List.mem_cons.mp hp with rfl | hp
      · exact hInv _ (List.mem_cons_self _ _)
      · exact ih (fun q hq => hInv q (List.mem_cons_of_mem _ hq)) p hp

lemma mem_dictDel {l : List (String × Record)} {n : String} {p : String × Record}
    (h : p ∈ dictDel l n) : p ∈ l := by
  induction l with
  | nil => cases h
  | cons q rest ih =>
    obtain ⟨k0, v0⟩ := q
    by_cases hk : k0 = n
    · unfold dictDel at h
      rw [if_pos hk] at h
      exact List.mem_cons_of_mem _ h
    · unfold dictDel at h
      rw [if_neg hk] at h
      rcases List.mem_cons.mp h with rfl | h
      · exact List.mem_cons_self _ _
      · exact List.mem_cons_of_mem _ (ih h)

lemma inv_add_record (b : AddressBook) (r : Record) (h : BookInv b) :
    BookInv (b.add_record r) :=
  bookInv_dictSet h rfl

lemma inv_delete (b : AddressBook) (nm : String) (h : BookInv b) :
    BookInv (b.delete nm) :=
  fun p hp => h p (mem_dictDel hp)

lemma addBirthday_name {r r2 : Record} {s : String} (h : r.add_birthday s = .ok r2) :
    r2.name = r.name := by
  unfold Record.add_birthday at h
  split at h
  · cases h; rfl
  · cases h

lemma inv_handle_add (args : List String) (b : AddressBook) (h : BookInv b) :
    BookInv (handle_add args b).2 := by
  rcases args with _ | ⟨a1, _ | ⟨a2, _ | ⟨a3, t⟩⟩⟩
  · exact h
  · exact h
  · cases hn : recordNew a1 with
    | error e => simp only [handle_add, handle_add_body, runHandler, hn]; exact h
    | ok record =>
      cases hp : record.add_phone a2 with
      | error e => simp only [handle_add, handle_add_body, runHandler, hn, hp]; exact h
      | ok record2 =>
        simp only [handle_add, handle_add_body, runHandler, hn, hp]
        exact inv_add_record b record2 h
  · exact h

lemma inv_handle_change (args : List String) (b : AddressBook) (h : BookInv b) :
    BookInv (handle_change args b).2 := by
  rcases args with _ | ⟨a1, _ | ⟨a2, _ | ⟨a3, t⟩⟩⟩
  · exact h
  · exact h
  · cases hf : b.find a1 with
    | none => simp only [handle_change, handle_change_body, runHandler, hf]; exact h
    | some record =>
      cases hidx : listIndex record.phones 0 with
      | error e =>
        simp only [handle_change, handle_change_body, runHandler, hf, hidx]; exact h
      | ok p0 =>
        simp only [handle_change, handle_change_body, runHandler, hf, hidx]
        have hrn : record.name.value = a1 := h _ (dictGet_mem hf)
        exact bookInv_dictSet h hrn
  · exact h

lemma inv_handle_phone (args : List String) (b : AddressBook) (h : BookInv b) :
    BookInv (handle_phone args b).2 := by
  rcases args with _ | ⟨a1, _ | ⟨a2, t⟩⟩
  · exact h
  · cases hf : b.find a1 with
    | none => simp only [handle_phone, handle_phone_body, runHandler, hf]; exact h
    | some record =>
      cases hidx : listIndex record.phones 0 with
      | error e => simp only [handle_phone, handle_phone_body, runHandler, hf, hidx]; exact h
      | ok p0 => simp only [handle_phone, handle_phone_body, runHandler, hf, hidx]; exact h
  · exact h

lemma inv_handle_add_birthday (args : List String) (b : AddressBook) (h : BookInv b) :
    BookInv (handle_add_birthday args b).2 := by
  rcases args with _ | ⟨a1, _ | ⟨a2, _ | ⟨a3, t⟩⟩⟩
  · exact h
  · exact h
  · cases hf : b.find a1 with
    | none =>
      simp only [handle_add_birthday, handle_add_birthday_body, runHandler, hf]; exact h
    | some record =>
      cases hb : record.add_birthday a2 with
      | error e =>
        simp only [handle_add_birthday, handle_add_birthday_body, runHandler, hf, hb]
        exact h
      | ok record2 =>
        simp only [handle_add_birthday, handle_add_birthday_body, runHandler, hf, hb]
        have hrn : record2.name.value = a1 := by
          rw [addBirthday_name hb]; exact h _ (dictGet_mem hf)
        exact bookInv_dictSet h hrn
  · exact h

lemma inv_handle_show_birthday (args : List String) (b : AddressBook) (h : BookInv b) :
    BookInv (handle_show_birthday args b).2 := by
  rcases args with _ | ⟨a1, _ | ⟨a2, t⟩⟩
  · exact h
  · cases hf : b.find a1 with
    | none =>
      simp only [handle_show_birthday, handle_show_birthday_body, runHandler, hf]; exact h
    | some record =>
      cases hb : record.birthday with
      | none =>
        simp only [handle_show_birthday, handle_show_birthday_body, runHandler, hf, hb]
        exact h
      | some bb =>
        simp only [handle_show_birthday, handle_show_birthday_body, runHandler, hf, hb]
        exact h
  · exact h

end invLemmas

/-- C10: in every book state reachable from the empty book through
add_record, delete and the command handlers, every entry is stored under
exactly the string value of the name of its record. -/
theorem reachable_key_eq_name (b : AddressBook) (h : ReachableBook b) :
    ∀ p ∈ b.data, p.2.name.value = p.1 := by
  induction h with
  | empty => intro p hp; cases hp
  | add_record b r _ ih => exact inv_add_record b r ih
  | del b nm _ ih => exact inv_delete b nm ih
  | app_add b args _ ih => exact inv_handle_add args b ih
  | app_change b args _ ih => exact inv_handle_change args b ih
  | app_phone b args _ ih => exact inv_handle_phone args b ih
  | app_add_birthday b args _ ih => exact inv_handle_add_birthday args b ih
  | app_show_birthday b args _ ih => exact inv_handle_show_birthday args b ih

/-- C10 witness: the book reached by one handle_add call stores the Bob
record under the key Bob. -/
theorem reachable_key_eq_name_witness :
    (Record.mk ⟨"Bob"⟩ [⟨"1234567890"⟩] none).name.value = "Bob" :=
  reachable_key_eq_name (handle_add ["Bob", "1234567890"] ⟨[]⟩).2
    (ReachableBook.app_add ⟨[]⟩ ["Bob", "1234567890"] ReachableBook.empty)
    ("Bob", ⟨⟨"Bob"⟩, [⟨"1234567890"⟩], none⟩) (by decide)

/-- C3 witness: the amended statement applied at concrete inputs, with
each kind of hypothesis discharged: a one argument add call, an invalid
add call Give me name and phone please., and a phone lookup miss. -/
theorem handler_error_messages_witness :
    handle_add ["B"] ⟨[]⟩ =
      ("Invalid input. Please provide a name and a phone number.", (⟨[]⟩ : AddressBook)) ∧
    handle_add ["B", "123"] ⟨[]⟩ = ("Give me name and phone please.", (⟨[]⟩ : AddressBook)) ∧
    handle_phone ["Carol"] ⟨[]⟩ = ("Contact not found.", (⟨[]⟩ : AddressBook)) :=
  ⟨(handler_error_messages ["B"] ⟨[]⟩).1 (by decide),
    (handler_error_messages [] ⟨[]⟩).2.1 "B" "123" (Or.inl (by decide)),
    (handler_error_messages [] ⟨[]⟩).2.2.2.2.2.1 "Carol" (by decide)⟩

/-- C6: adding two records with the same name value leaves exactly one
entry under that name, holding the second record, and lookups of every
other name are unchanged. -/
theorem add_record_overwrite (b : AddressBook) (r1 r2 : Record)
    (hname : r1.name.value = r2.name.value)
    (hnd : (b.data.map Prod.fst).Nodup) :
    ((b.add_record r1).add_record r2).find r2.name.value = some r2 ∧
    (((b.add_record r1).add_record r2).data.map Prod.fst).count r2.name.value = 1 ∧
    ∀ k, k ≠ r2.name.value → ((b.add_record r1).add_record r2).find k = b.find k := by
  unfold AddressBook.add_record AddressBook.find
  simp only [hname]
  set n := r2.name.value with hn
  refine ⟨dictGet_dictSet_self _ n r2, ?_, ?_⟩
  · have hkeys : (dictSet (dictSet b.data n r1) n r2).map Prod.fst =
        (dictSet b.data n r1).map Prod.fst :=
      dictSet_keys_of_mem _ n r2 (mem_keys_dictSet b.data n r1)
    rw [hkeys]
    exact List.count_eq_one_of_mem (nodup_keys_dictSet b.data n r1 hnd)
      (mem_keys_dictSet b.data n r1)
  · intro k hk
    rw [dictGet_dictSet_ne _ n k r2 hk, dictGet_dictSet_ne _ n k r1 hk]

/-- C6 witness: a concrete book with one other entry, overwritten by a
second record with the same name. -/
theorem add_record_overwrite_witness :
    ((AddressBook.add_record (AddressBook.add_record ⟨[("Eve", ⟨⟨"Eve"⟩, [], none⟩)]⟩
          ⟨⟨"Bob"⟩, [⟨"1111111111"⟩], none⟩) ⟨⟨"Bob"⟩, [⟨"2222222222"⟩], none⟩).find "Bob" =
      some ⟨⟨"Bob"⟩, [⟨"2222222222"⟩], none⟩) ∧
    ((((AddressBook.add_record (AddressBook.add_record ⟨[("Eve", ⟨⟨"Eve"⟩, [], none⟩)]⟩
          ⟨⟨"Bob"⟩, [⟨"1111111111"⟩], none⟩) ⟨⟨"Bob"⟩, [⟨"2222222222"⟩], none⟩).data.map
            Prod.fst).count "Bob") = 1) :=
  ⟨(add_record_overwrite ⟨[("Eve", ⟨⟨"Eve"⟩, [], none⟩)]⟩ ⟨⟨"Bob"⟩, [⟨"1111111111"⟩], none⟩
      ⟨⟨"Bob"⟩, [⟨"2222222222"⟩], none⟩ rfl (by decide)).1,
    (add_record_overwrite ⟨[("Eve", ⟨⟨"Eve"⟩, [], none⟩)]⟩ ⟨⟨"Bob"⟩, [⟨"1111111111"⟩], none⟩
      ⟨⟨"Bob"⟩, [⟨"2222222222"⟩], none⟩ rfl (by decide)).2.1⟩

section gbpwLemmas

lemma selName_of_no_birthday {today : Date} {L : String} {pr : String × Record}
    (hb : pr.2.birthday = none) : selName today L pr = none := by
  unfold selName; rw [hb]

lemma gbpwAux_characterization (today : Date) (l : List (String × Record)) :
    ∀ acc : Buckets, l.all (fun pr => birthdayParses pr.2) = true →
      gbpwAux today l acc =
        .ok (acc.map fun q => (q.1, q.2 ++ l.filterMap (selName today q.1))) := by
  induction l with
  | nil =>
    intro acc _
    simp [gbpwAux]
  | cons pr rest ih =>
    intro acc hv
    rw [List.all_cons, Bool.and_eq_true] at hv
    obtain ⟨hv1, hv2⟩ := hv
    cases hb : pr.2.birthday with
    | none =>
      rw [show gbpwAux today (pr :: rest) acc = gbpwAux today rest acc from by
        simp only [gbpwAux, hb]]
      rw [ih acc hv2]
      congr 1
      apply List.map_congr_left
      intro q _
      rw [List.filterMap_cons_none (selName_of_no_birthday hb)]
    | some b =>
      have hparse : (pyStrptimeDMY b.value).isOk = true := by
        unfold birthdayParses at hv1
        rw [hb] at hv1
        exact hv1
      cases hps : pyStrptimeDMY b.value with
      | error e => rw [hps] at hparse; simp [Except.isOk, Except.toBool] at hparse
      | ok bd =>
        have hsum : (ordDate today : Int) + ((ordDate bd : Int) - (ordDate today : Int)) =
            (ordDate bd : Int) := by ring
        have hsel : ∀ L : String, selName today L pr =
            (if 0 ≤ (ordDate bd : Int) - (ordDate today : Int) ∧
                (ordDate bd : Int) - (ordDate today : Int) < 7 ∧ bucketLabel bd = L then
              some pr.2.name.value else none) := by
          intro L
          unfold selName
          rw [hb]
          show (match pyStrptimeDMY b.value with
            | .error _ => none
            | .ok bd =>
              if 0 ≤ (ordDate bd : Int) - (ordDate today : Int) ∧
                  (ordDate bd : Int) - (ordDate today : Int) < 7 ∧ bucketLabel bd = L then
                some pr.2.name.value
              else none) = _
          rw [hps]
        simp only [gbpwAux, hb, hps, hsum]
        by_cases hw : 0 ≤ (ordDate bd : Int) - (ordDate today : Int) ∧
            (ordDate bd : Int) - (ordDate today : Int) < 7
        · rw [if_pos hw]
          by_cases hsat : weekdayName (ordDate bd : Int) = "Saturday" ∨
              weekdayName (ordDate bd : Int) = "Sunday"
          · rw [if_pos hsat, ih _ hv2]
            congr 1
            unfold appendBucket
            rw [List.map_map]
            apply List.map_congr_left
            intro q _
            simp only [Function.comp_apply]
            by_cases hq : q.1 = "Next Monday"
            · rw [if_pos hq]
              have hs : selName today q.1 pr = some pr.2.name.value := by
                rw [hsel q.1, if_pos ⟨hw.1, hw.2, by unfold bucketLabel; rw [if_pos hsat, hq]⟩]
              rw [List.filterMap_cons_some hs]
              simp [List.append_assoc]
            · rw [if_neg hq]
              have hs : selName today q.1 pr = none := by
                rw [hsel q.1]
                apply if_neg
                rintro ⟨h1, h2, h3⟩
                unfold bucketLabel at h3
                rw [if_pos hsat] at h3
                exact hq h3.symm
              rw [List.filterMap_cons_none hs]
          · rw [if_neg hsat, ih _ hv2]
            congr 1
            unfold appendBucket
            rw [List.map_map]
            apply List.map_congr_left
            intro q _
            simp only [Function.comp_apply]
            by_cases hq : q.1 = weekdayName (ordDate bd : Int)
            · rw [if_pos hq]
              have hs : selName today q.1 pr = some pr.2.name.value := by
                rw [hsel q.1, if_pos ⟨hw.1, hw.2, by unfold bucketLabel; rw [if_neg hsat, hq]⟩]
              rw [List.filterMap_cons_some hs]
              simp [List.append_assoc]
            · rw [if_neg hq]
              have hs : selName today q.1 pr = none := by
                rw [hsel q.1]
                apply if_neg
                rintro ⟨h1, h2, h3⟩
                unfold bucketLabel at h3
                rw [if_neg hsat] at h3
                exact hq h3.symm
              rw [List.filterMap_cons_none hs]
        · rw [if_neg hw, ih _ hv2]
          congr 1
          apply List.map_congr_left
          intro q _
          have hs : selName today q.1 pr = none := by
            rw [hsel q.1]
            apply if_neg
            rintro ⟨h1, h2, h3⟩
            exact hw ⟨h1, h2⟩
          rw [List.filterMap_cons_none hs]

end gbpwLemmas

/-- C1: for every book whose stored birthdays parse, and every fixed
today, the weekly query returns all six buckets in the literal order
Monday to Friday then Next Monday; the bucket of label L holds exactly
the names, in book insertion order, of the records whose stored birthday
parses literally, with its stored year, to a date bd with
0 <= bd - today < 7 days and whose bucket label is L, where the label is
Next Monday when bd falls on a Saturday or Sunday and the weekday name
of bd otherwise. Hence a name appears somewhere in the result if and
only if its record has a birthday whose literal date is 0 to 6 days
after today, and it appears exactly in its bucket. -/
theorem get_birthdays_per_week_spec (book : AddressBook) (today : Date)
    (hv : book.data.all (fun pr => birthdayParses pr.2) = true) :
    book.get_birthdays_per_week today = .ok
      [("Monday", book.data.filterMap (selName today "Monday")),
       ("Tuesday", book.data.filterMap (selName today "Tuesday")),
       ("Wednesday", book.data.filterMap (selName today "Wednesday")),
       ("Thursday", book.data.filterMap (selName today "Thursday")),
       ("Friday", book.data.filterMap (selName today "Friday")),
       ("Next Monday", book.data.filterMap (selName today "Next Monday"))] := by
  unfold AddressBook.get_birthdays_per_week
  rw [gbpwAux_characterization today book.data initialBuckets hv]
  rfl

/-- C1 witness: the spec scenario, a book with Alice whose stored
birthday 15.06.2024 is the Saturday five days after the fixed today
2024-06-10, lands in the Next Monday bucket of the full six bucket
result. -/
theorem get_birthdays_per_week_spec_witness :
    AddressBook.get_birthdays_per_week
        ⟨[("Alice", ⟨⟨"Alice"⟩, [], some ⟨"15.06.2024"⟩⟩)]⟩ ⟨2024, 6, 10⟩ =
      .ok [("Monday", []), ("Tuesday", []), ("Wednesday", []), ("Thursday", []),
        ("Friday", []), ("Next Monday", ["Alice"])] := by
  rw [get_birthdays_per_week_spec
    ⟨[("Alice", ⟨⟨"Alice"⟩, [], some ⟨"15.06.2024"⟩⟩)]⟩ ⟨2024, 6, 10⟩ (by decide)]
  rfl
